import Mathlib

/-!
Verification of the run-streaming orchestrator of `backend/app/server.py`
(the `/runs` endpoint): the background producer `consume_astream`, the
handoff channel between it and the outbound SSE generator `_stream`, and
the request-handling control flow of `create_run_endpoint`.

External collaborators (the agent-execution engine, the storage layer, the
input-schema validator, the chunk serializer, the event aggregator's run id)
are parameters of the embedding.  The handoff channel and the
`StreamMessagesHandler` live in `app/stream.py`, which is not part of the
sources here; they are modelled from the spec where noted.
-/

/-- An item carried on the handoff channel: either one incremental output
chunk (opaque, kept as its serializable payload) or the terminal failure
marker wrapping the raised exception's message (`streamer.send_stream.send(e)`
sends the exception object itself). -/
inductive ChannelItem where
  | chunk (payload : String)
  | failure (msg : String)
deriving DecidableEq, Repr

/-- An action performed by the producer on the handoff channel:
`send` an item, or `aclose` the sending end. -/
inductive ChannelAction where
  | send (item : ChannelItem)
  | aclose
deriving DecidableEq, Repr

/-- Model of `consume_astream` (server.py lines 115-122): iterates the agent's
incremental output, sending each chunk on the channel; on a raised error it
sends the exception instead; the `finally` block always closes the channel.
The opaque agent execution is its observable behaviour: the list of chunks
it yields in order, and `err = some m` when it raises after those chunks
(`none` when it completes normally). -/
def consume_astream (chunks : List String) (err : Option String) :
    List ChannelAction :=
  (chunks.map fun c => ChannelAction.send (ChannelItem.chunk c)) ++
    (match err with
      | some m => [ChannelAction.send (ChannelItem.failure m)]
      | none => []) ++
    [ChannelAction.aclose]

/-- Modelled from the spec: the handoff channel (created inside
`StreamMessagesHandler` in `app/stream.py`, not in the sources) is a
single-producer single-consumer FIFO; the consumer receives exactly the
items sent before the close signal, in send order, then observes closure. -/
def channelReceived : List ChannelAction → List ChannelItem
  | [] => []
  | ChannelAction.aclose :: _ => []
  | ChannelAction.send i :: rest => i :: channelReceived rest

/-- A client-facing server-sent event, with its serialized data payload. -/
inductive Event where
  | metadata (payload : String)
  | data (payload : String)
  | error (payload : String)
  | endEvent
deriving DecidableEq, Repr

/-- An observable step of the `_stream` generator: yielding an event to the
`EventSourceResponse`, or awaiting the background task handle. -/
inductive StreamAction where
  | emit (e : Event)
  | awaitTask
deriving DecidableEq, Repr

/-- The fixed sanitized error payload
`orjson.dumps({"status_code": 500, "message": "Internal Server Error"})`. -/
def errorPayload : String :=
  "\x7b\"status_code\":500,\"message\":\"Internal Server Error\"\x7d"

/-- The metadata payload `orjson.dumps({"run_id": ...})` for a given run id. -/
def metadataPayload (runId : String) : String :=
  "\x7b\"run_id\":\"" ++ runId ++ "\"\x7d"

/-- The consumer loop of `_stream` (server.py lines 128-164).  Each received
channel item is paired with the truth value of
`event_aggregator.callback_events` being nonempty as observed by the loop
when it handles that item (the aggregator is filled concurrently by the
execution's callbacks, so this observation is external input).  On a failure
item the generator yields the sanitized error event and re-raises, so the
remaining items are never read, no end event follows and the task handle is
never awaited.  On exhaustion (channel closed) it yields the end event and
awaits the background task. -/
def streamLoop (serialize : String → String) (runId : String) :
    Bool → List (ChannelItem × Bool) → List StreamAction
  | _, [] => [StreamAction.emit Event.endEvent, StreamAction.awaitTask]
  | _, (ChannelItem.failure _, _) :: _ =>
      [StreamAction.emit (Event.error errorPayload)]
  | hasSentMetadata, (ChannelItem.chunk c, aggNonempty) :: rest =>
      (if !hasSentMetadata && aggNonempty then
        [StreamAction.emit (Event.metadata (metadataPayload runId))]
      else []) ++
      StreamAction.emit (Event.data (serialize c)) ::
        streamLoop serialize runId (hasSentMetadata || aggNonempty) rest

/-- Pairs each received channel item with the aggregator observation made at
the loop iteration that handles it (`obs i` for the i-th received item). -/
def withObs : List ChannelItem → (Nat → Bool) → List (ChannelItem × Bool)
  | [], _ => []
  | i :: rest, obs => (i, obs 0) :: withObs rest (fun n => obs (n + 1))

/-- The items the consumer receives for a run whose agent execution yields
`chunks` and then fails with `err` (or completes when `err = none`). -/
def runItems (chunks : List String) (err : Option String) : List ChannelItem :=
  channelReceived (consume_astream chunks err)

/-- The full streaming pipeline of one run: the background task's channel
actions, the channel, and the `_stream` consumer with its per-iteration
aggregator observations.  Returns the generator's observable action trace. -/
def streamRun (serialize : String → String) (runId : String)
    (chunks : List String) (err : Option String) (obs : Nat → Bool) :
    List StreamAction :=
  streamLoop serialize runId false (withObs (runItems chunks err) obs)

/-- The events yielded to the client, in order, extracted from the trace. -/
def emitted (tr : List StreamAction) : List Event :=
  tr.filterMap fun a =>
    match a with
    | StreamAction.emit e => some e
    | StreamAction.awaitTask => none

/-- The event sequence a client observes for a run. -/
def runEvents (serialize : String → String) (runId : String)
    (chunks : List String) (err : Option String) (obs : Nat → Bool) :
    List Event :=
  emitted (streamRun serialize runId chunks err obs)

def Event.isData : Event → Bool
  | Event.data _ => true
  | _ => false

def Event.isMetadata : Event → Bool
  | Event.metadata _ => true
  | _ => false

def Event.isError : Event → Bool
  | Event.error _ => true
  | _ => false

def Event.isEnd : Event → Bool
  | Event.endEvent => true
  | _ => false

def StreamAction.isAwait : StreamAction → Bool
  | StreamAction.awaitTask => true
  | _ => false

def ChannelAction.isFailureSend : ChannelAction → Bool
  | ChannelAction.send (ChannelItem.failure _) => true
  | _ => false

def ChannelAction.isSend : ChannelAction → Bool
  | ChannelAction.send _ => true
  | _ => false

def ChannelAction.isClose : ChannelAction → Bool
  | ChannelAction.aclose => true
  | _ => false

/-- Checks the event shape claimed for a successful run: an optional single
metadata event first, then only data events, then exactly one end event. -/
def dataThenEnd : List Event → Bool
  | [Event.endEvent] => true
  | Event.data _ :: rest => dataThenEnd rest
  | _ => false

/-- Optional single leading metadata event, then data events, then one end. -/
def c1Shape : List Event → Bool
  | Event.metadata _ :: rest => dataThenEnd rest
  | evs => dataThenEnd evs

/-- True when some metadata event appears strictly after some data event. -/
def metaAfterData : List Event → Bool
  | [] => false
  | Event.data _ :: rest => rest.any Event.isMetadata
  | _ :: rest => metaAfterData rest

/-- The request body as a parsed JSON object: each of the four keys the
endpoint reads may be absent (the raw input value and message types are
opaque, kept as strings).  Reading an absent key raises `KeyError`. -/
structure RequestBody where
  assistant_id : Option String
  thread_id : Option String
  stream : Option Bool
  input : Option String
deriving DecidableEq, Repr

/-- The declared request model (server.py lines 67-72): all four fields
required.  It is declared but never applied to the body by the endpoint. -/
structure CreateRunPayload where
  assistant_id : String
  thread_id : String
  stream : Bool
  input : List String
deriving DecidableEq, Repr

/-- Validation of a body against the declared `CreateRunPayload` model
(what applying the request model would do): `none` when a key is missing. -/
def validateCreateRunPayload (validate : String → Except String (List String))
    (body : RequestBody) : Option CreateRunPayload :=
  match body.assistant_id, body.thread_id, body.stream, body.input with
  | some aid, some tid, some st, some raw =>
      match validate raw with
      | Except.ok msgs => some ⟨aid, tid, st, msgs⟩
      | Except.error _ => none
  | _, _, _, _ => none

/-- How `create_run_endpoint` terminates exceptionally: a structured
`RequestValidationError` (a 422 validation rejection with detail safe to
expose), or a `KeyError` on a missing body key (surfacing as an internal
server error). -/
inductive EndpointError where
  | requestValidationError (detail : String)
  | keyError (key : String)
deriving DecidableEq, Repr

/-- The endpoint's successful response: the streaming `EventSourceResponse`
(recorded with the message history the `StreamMessagesHandler` was
constructed with), or the immediate acknowledgment `{"status": <status>}`
of the non-streaming path, which carries no run identifier. -/
inductive EndpointResponse where
  | eventSource (streamerMessages : List String)
  | ack (status : String)
deriving DecidableEq, Repr

/-- The observable outcome of one call to the endpoint: its response or
error, whether the streaming background task (`asyncio.create_task`) was
started, and whether a fire-and-forget task (`background_tasks.add_task`)
was scheduled. -/
structure EndpointResult where
  response : Except EndpointError EndpointResponse
  streamTaskStarted : Bool
  backgroundTaskAdded : Bool
deriving Repr

/-- Model of `create_run_endpoint` (server.py lines 75-169) up to its control flow:
`request.json()` is abstracted to `parsedBody` (`none` on a JSON decode
error, which is turned into a `RequestValidationError`); the storage lookups
supply `priorMessages` (the thread's `state["messages"]`); the input-schema
validator `agent.get_input_schema(config).validate` composed with
`_unpack_input` is the external `validate`, returning the new input's
messages or a `ValidationError` detail.  Keys are read in source order:
`assistant_id` and `thread_id` when the storage calls are assembled, then
`input` for validation, then `stream` for the branch.  The streaming branch
constructs the `StreamMessagesHandler` with
`state["messages"] + input_["messages"]` and starts the background task; the
non-streaming branch schedules `agent.ainvoke` as fire-and-forget and
returns `{"status": "ok"}` immediately. -/
def create_run_endpoint (parsedBody : Option RequestBody)
    (priorMessages : List String)
    (validate : String → Except String (List String)) : EndpointResult :=
  match parsedBody with
  | none =>
      ⟨Except.error (EndpointError.requestValidationError "Invalid JSON body"),
        false, false⟩
  | some body =>
      match body.assistant_id with
      | none => ⟨Except.error (EndpointError.keyError "assistant_id"), false, false⟩
      | some _ =>
          match body.thread_id with
          | none => ⟨Except.error (EndpointError.keyError "thread_id"), false, false⟩
          | some _ =>
              match body.input with
              | none => ⟨Except.error (EndpointError.keyError "input"), false, false⟩
              | some raw =>
                  match validate raw with
                  | Except.error e =>
                      ⟨Except.error (EndpointError.requestValidationError e),
                        false, false⟩
                  | Except.ok inputMessages =>
                      match body.stream with
                      | none =>
                          ⟨Except.error (EndpointError.keyError "stream"),
                            false, false⟩
                      | some st =>
                          if st then
                            ⟨Except.ok (EndpointResponse.eventSource
                              (priorMessages ++ inputMessages)), true, false⟩
                          else
                            ⟨Except.ok (EndpointResponse.ack "ok"), false, true⟩

/-- Actions that only emit metadata or data events (the per-chunk part of
the consumer loop's output). -/
def isMetaOrData : StreamAction → Bool
  | StreamAction.emit (Event.metadata _) => true
  | StreamAction.emit (Event.data _) => true
  | _ => false

/-- No `send` action occurs after a failure-marker send. -/
def noSendAfterFailure : List ChannelAction → Bool
  | [] => true
  | ChannelAction.send (ChannelItem.failure _) :: rest =>
      rest.all fun a => !a.isSend
  | _ :: rest => noSendAfterFailure rest

theorem emitted_nil : emitted [] = [] := rfl

theorem emitted_emit (e : Event) (tr : List StreamAction) :
    emitted (StreamAction.emit e :: tr) = e :: emitted tr := rfl

theorem emitted_await (tr : List StreamAction) :
    emitted (StreamAction.awaitTask :: tr) = emitted tr := rfl

theorem emitted_append (a b : List StreamAction) :
    emitted (a ++ b) = emitted a ++ emitted b := by
  simp [emitted]

theorem runItems_nil_none : runItems [] none = [] := rfl

theorem runItems_nil_some (m : String) :
    runItems [] (some m) = [ChannelItem.failure m] := rfl

theorem runItems_cons (c : String) (cs : List String) (err : Option String) :
    runItems (c :: cs) err = ChannelItem.chunk c :: runItems cs err := rfl

/-- Once the metadata flag is set, the loop never emits a metadata event. -/
theorem streamLoop_true_no_metadata (serialize : String → String)
    (runId : String) :
    ∀ l : List (ChannelItem × Bool),
      (emitted (streamLoop serialize runId true l)).countP Event.isMetadata = 0
  | [] => by simp [streamLoop, emitted, Event.isMetadata]
  | (ChannelItem.failure m, a) :: rest => by
      simp [streamLoop, emitted, Event.isMetadata]
  | (ChannelItem.chunk c, a) :: rest => by
      have ih := streamLoop_true_no_metadata serialize runId rest
      simp [streamLoop, emitted_emit, List.countP_cons, Event.isMetadata, ih]

/-- The loop's output over the chunk prefix of the channel decomposes as a
prefix of metadata/data emissions — whose data events are exactly the
serialized chunks in production order and which holds at most one metadata
event — followed by the loop's handling of the remaining items. -/
theorem streamLoop_decomp (serialize : String → String) (runId : String) :
    ∀ (chunks : List String) (b : Bool) (obs : Nat → Bool)
      (tail : List ChannelItem),
      ∃ (pre : List StreamAction) (b' : Bool) (obs' : Nat → Bool),
        streamLoop serialize runId b
            (withObs (chunks.map ChannelItem.chunk ++ tail) obs)
          = pre ++ streamLoop serialize runId b' (withObs tail obs')
        ∧ pre.all isMetaOrData = true
        ∧ (emitted pre).filter Event.isData
            = chunks.map (fun c => Event.data (serialize c))
        ∧ (emitted pre).countP Event.isMetadata ≤ 1
        ∧ (b = true → (emitted pre).countP Event.isMetadata = 0) := by
  intro chunks
  induction chunks with
  | nil =>
      intro b obs tail
      exact ⟨[], b, obs, rfl, rfl, rfl, by simp [emitted], fun _ => rfl⟩
  | cons c cs ih =>
      intro b obs tail
      obtain ⟨pre₁, b', obs', heq, hall, hdata, hle, hzero⟩ :=
        ih (b || obs 0) (fun n => obs (n + 1)) tail
      refine ⟨(if !b && obs 0 then
            [StreamAction.emit (Event.metadata (metadataPayload runId))]
          else []) ++ StreamAction.emit (Event.data (serialize c)) :: pre₁,
        b', obs', ?_, ?_, ?_, ?_, ?_⟩
      · simp only [List.map_cons, List.cons_append, withObs, streamLoop, heq]
        simp
        exact heq
      · cases hobs : (!b && obs 0) <;> simp_all [isMetaOrData]
      · cases hobs : (!b && obs 0) <;>
          simp_all [emitted_append, emitted_emit, emitted_nil,
            List.filter_append, List.filter_cons, Event.isData, emitted]
      · cases hobs : (!b && obs 0)
        · simpa [emitted_append, emitted_emit, emitted_nil, List.countP_cons,
            Event.isMetadata] using hle
        · have hb : b = false := by
            cases b
            · rfl
            · simp at hobs
          have hobs0 : obs 0 = true := by
            cases h0 : obs 0
            · rw [h0] at hobs; simp at hobs
            · rfl
          have : (b || obs 0) = true := by rw [hb, hobs0]; rfl
          have h1 := hzero this
          simp [emitted_append, emitted_emit, emitted_nil, List.countP_cons,
            Event.isMetadata, h1]
      · intro hb
        have hcond : (!b && obs 0) = false := by rw [hb]; rfl
        have : (b || obs 0) = true := by rw [hb]; rfl
        have h1 := hzero this
        simp [hcond, emitted_append, emitted_emit, emitted_nil,
          List.countP_cons, Event.isMetadata, h1]

/-- A prefix of metadata/data emissions contains no end event, no error
event and no await of the task handle. -/
theorem all_metaOrData_counts :
    ∀ pre : List StreamAction, pre.all isMetaOrData = true →
      (emitted pre).countP Event.isEnd = 0
      ∧ (emitted pre).countP Event.isError = 0
      ∧ pre.countP StreamAction.isAwait = 0 := by
  intro pre
  induction pre with
  | nil => intro _; exact ⟨rfl, rfl, rfl⟩
  | cons a rest ih =>
      intro h
      rw [List.all_cons, Bool.and_eq_true] at h
      obtain ⟨hrest1, hrest2, hrest3⟩ := ih h.2
      cases a with
      | awaitTask => simp [isMetaOrData] at h
      | emit e =>
          cases e <;>
            simp_all [isMetaOrData, emitted_emit, List.countP_cons,
              Event.isEnd, Event.isError, StreamAction.isAwait]

theorem streamLoop_true_no_metadata_any (serialize : String → String)
    (runId : String) (l : List (ChannelItem × Bool)) :
    (emitted (streamLoop serialize runId true l)).any Event.isMetadata
      = false := by
  have h := streamLoop_true_no_metadata serialize runId l
  rw [List.countP_eq_zero] at h
  rw [List.any_eq_false]
  intro e he
  simpa using h e he

/-- If the aggregator has already recorded an event when the first channel
item is handled, no metadata event ever follows a data event. -/
theorem metaAfterData_of_obs0 (serialize : String → String) (runId : String) :
    ∀ (items : List ChannelItem) (obs : Nat → Bool), obs 0 = true →
      metaAfterData (emitted (streamLoop serialize runId false
        (withObs items obs))) = false := by
  intro items obs h0
  cases items with
  | nil => rfl
  | cons i rest =>
      cases i with
      | failure m => simp [withObs, streamLoop, emitted, metaAfterData]
      | chunk c =>
          have hany := streamLoop_true_no_metadata_any serialize runId
            (withObs rest fun n => obs (n + 1))
          simp [withObs, streamLoop, h0, emitted_emit, metaAfterData, hany]

theorem runItems_none (chunks : List String) :
    runItems chunks none = chunks.map ChannelItem.chunk := by
  induction chunks with
  | nil => rfl
  | cons c cs ih => rw [runItems_cons, ih, List.map_cons]

theorem runItems_some (chunks : List String) (m : String) :
    runItems chunks (some m)
      = chunks.map ChannelItem.chunk ++ [ChannelItem.failure m] := by
  induction chunks with
  | nil => rfl
  | cons c cs ih => rw [runItems_cons, ih, List.map_cons, List.cons_append]

/-- A successful run's trace: metadata/data emissions, then the end event,
then the await of the background task handle. -/
theorem streamRun_none_decomp (serialize : String → String) (runId : String)
    (chunks : List String) (obs : Nat → Bool) :
    ∃ pre : List StreamAction,
      streamRun serialize runId chunks none obs
        = pre ++ [StreamAction.emit Event.endEvent, StreamAction.awaitTask]
      ∧ pre.all isMetaOrData = true
      ∧ (emitted pre).filter Event.isData
          = chunks.map (fun c => Event.data (serialize c))
      ∧ (emitted pre).countP Event.isMetadata ≤ 1 := by
  obtain ⟨pre, b', obs', heq, hall, hdata, hle, _⟩ :=
    streamLoop_decomp serialize runId chunks false obs []
  refine ⟨pre, ?_, hall, hdata, hle⟩
  rw [streamRun, runItems_none, show List.map ChannelItem.chunk chunks
    = List.map ChannelItem.chunk chunks ++ [] from (List.append_nil _).symm,
    heq]
  rfl

/-- A failed run's trace: metadata/data emissions for the chunks produced
before the failure, then the sanitized error event, and nothing else. -/
theorem streamRun_some_decomp (serialize : String → String) (runId : String)
    (chunks : List String) (m : String) (obs : Nat → Bool) :
    ∃ pre : List StreamAction,
      streamRun serialize runId chunks (some m) obs
        = pre ++ [StreamAction.emit (Event.error errorPayload)]
      ∧ pre.all isMetaOrData = true
      ∧ (emitted pre).filter Event.isData
          = chunks.map (fun c => Event.data (serialize c))
      ∧ (emitted pre).countP Event.isMetadata ≤ 1 := by
  obtain ⟨pre, b', obs', heq, hall, hdata, hle, _⟩ :=
    streamLoop_decomp serialize runId chunks false obs [ChannelItem.failure m]
  refine ⟨pre, ?_, hall, hdata, hle⟩
  rw [streamRun, runItems_some, heq]
  rfl

/-- C1 (counterexample): a successful two-chunk run in which the aggregator
reports its first callback event only while the second chunk is handled
yields `[data, metadata, data, end]` — the metadata event does not come
first, so the claimed shape `optional metadata, then all data, then end`
fails on this run. -/
theorem c1_counterexample :
    c1Shape (runEvents id "r" ["A", "B"] none (fun n => decide (1 ≤ n)))
      = false := by decide

/-- C1 (amended): for every successful streaming run of N chunks, the data
events are exactly the N chunks, serialized, in production order; at most
one metadata event is emitted, and it precedes every data event whenever
the aggregator has already recorded an event when the first chunk is
handled; no error event is emitted; exactly one end event is emitted, as
the last event; and the background task handle is awaited exactly once, as
the last step of the generator before the stream closes. -/
theorem c1_run_event_shape (serialize : String → String) (runId : String)
    (chunks : List String) (obs : Nat → Bool) :
    (runEvents serialize runId chunks none obs).filter Event.isData
        = chunks.map (fun c => Event.data (serialize c))
    ∧ (runEvents serialize runId chunks none obs).countP Event.isMetadata ≤ 1
    ∧ (runEvents serialize runId chunks none obs).countP Event.isError = 0
    ∧ (runEvents serialize runId chunks none obs).countP Event.isEnd = 1
    ∧ (runEvents serialize runId chunks none obs).getLast?
        = some Event.endEvent
    ∧ (streamRun serialize runId chunks none obs).countP StreamAction.isAwait
        = 1
    ∧ (streamRun serialize runId chunks none obs).getLast?
        = some StreamAction.awaitTask
    ∧ (obs 0 = true →
        metaAfterData (runEvents serialize runId chunks none obs) = false) := by
  obtain ⟨pre, htr, hall, hdata, hle⟩ :=
    streamRun_none_decomp serialize runId chunks obs
  obtain ⟨hend, herr, hawait⟩ := all_metaOrData_counts pre hall
  have hev : runEvents serialize runId chunks none obs
      = emitted pre ++ [Event.endEvent] := by
    rw [runEvents, htr, emitted_append]; rfl
  refine ⟨?_, ?_, ?_, ?_, ?_, ?_, ?_, ?_⟩
  · rw [hev, List.filter_append, hdata]
    simp [Event.isData]
  · rw [hev, List.countP_append]
    simpa [Event.isMetadata] using hle
  · rw [hev, List.countP_append, herr]
    simp [Event.isError]
  · rw [hev, List.countP_append, hend]
    simp [Event.isEnd]
  · rw [hev]
    exact List.getLast?_concat _
  · rw [htr, List.countP_append, hawait]
    simp [StreamAction.isAwait]
  · rw [htr, show pre ++ [StreamAction.emit Event.endEvent,
        StreamAction.awaitTask]
      = (pre ++ [StreamAction.emit Event.endEvent])
          ++ [StreamAction.awaitTask] by simp]
    exact List.getLast?_concat _
  · intro h0
    rw [runEvents, streamRun]
    exact metaAfterData_of_obs0 serialize runId _ obs h0

/-- C1 (witness): the amended shape theorem instantiated on the concrete
run of chunks `[A, B]` with the aggregator ready from the start. -/
theorem c1_run_event_shape_witness :
    (runEvents id "r" ["A", "B"] none (fun _ => true)).filter Event.isData
        = [Event.data "A", Event.data "B"]
    ∧ metaAfterData (runEvents id "r" ["A", "B"] none (fun _ => true))
        = false := by
  have h := c1_run_event_shape id "r" ["A", "B"] (fun _ => true)
  exact ⟨h.1, h.2.2.2.2.2.2.2 rfl⟩

/-- The generator's output does not depend on the failure marker's message:
the trace for a run failing with one message equals the trace for the same
run failing with any other. -/
theorem streamLoop_failure_msg_indep (serialize : String → String)
    (runId : String) (m₁ m₂ : String) :
    ∀ (chunks : List String) (b : Bool) (obs : Nat → Bool),
      streamLoop serialize runId b
          (withObs (chunks.map ChannelItem.chunk
            ++ [ChannelItem.failure m₁]) obs)
        = streamLoop serialize runId b
            (withObs (chunks.map ChannelItem.chunk
              ++ [ChannelItem.failure m₂]) obs)
  | [], _, _ => rfl
  | c :: cs, b, obs => by
      simp only [List.map_cons, List.cons_append, withObs, streamLoop,
        List.append_eq]
      rw [streamLoop_failure_msg_indep serialize runId m₁ m₂ cs (b || obs 0)
        (fun n => obs (n + 1))]

/-- C2: when execution fails after K chunks, the client observes the K data
events for those chunks, serialized, in production order; exactly one error
event, as the last event, carrying exactly the fixed payload
`{"status_code": 500, "message": "Internal Server Error"}`; no end event;
and the whole emitted sequence is independent of the internal exception's
message, so its text never appears in any event. -/
theorem c2_failure_sanitized (serialize : String → String) (runId : String)
    (chunks : List String) (m : String) (obs : Nat → Bool) :
    (runEvents serialize runId chunks (some m) obs).filter Event.isData
        = chunks.map (fun c => Event.data (serialize c))
    ∧ (runEvents serialize runId chunks (some m) obs).countP Event.isError = 1
    ∧ (runEvents serialize runId chunks (some m) obs).getLast?
        = some (Event.error errorPayload)
    ∧ (runEvents serialize runId chunks (some m) obs).countP Event.isEnd = 0
    ∧ ∀ m' : String,
        runEvents serialize runId chunks (some m) obs
          = runEvents serialize runId chunks (some m') obs := by
  obtain ⟨pre, htr, hall, hdata, hle⟩ :=
    streamRun_some_decomp serialize runId chunks m obs
  obtain ⟨hend, herr, hawait⟩ := all_metaOrData_counts pre hall
  have hev : runEvents serialize runId chunks (some m) obs
      = emitted pre ++ [Event.error errorPayload] := by
    rw [runEvents, htr, emitted_append]; rfl
  refine ⟨?_, ?_, ?_, ?_, ?_⟩
  · rw [hev, List.filter_append, hdata]
    simp [Event.isData]
  · rw [hev, List.countP_append, herr]
    simp [Event.isError]
  · rw [hev]
    exact List.getLast?_concat _
  · rw [hev, List.countP_append, hend]
    simp [Event.isEnd]
  · intro m'
    rw [runEvents, runEvents, streamRun, streamRun, runItems_some,
      runItems_some]
    rw [streamLoop_failure_msg_indep serialize runId m m' chunks false obs]

/-- C3 (counterexample): in a run whose aggregator reports its first
callback event only while the second chunk is handled, a metadata event is
emitted after a data event — metadata does not precede every data event. -/
theorem c3_counterexample :
    metaAfterData (runEvents id "rid" ["X", "Y"] none
      (fun n => decide (1 ≤ n))) = true := by decide

/-- C3 (amended): for every streaming run the metadata event is emitted at
most once; and whenever the aggregator has already recorded an event when
the first channel item is handled, it precedes every data event. -/
theorem c3_metadata_once (serialize : String → String) (runId : String)
    (chunks : List String) (err : Option String) (obs : Nat → Bool) :
    (runEvents serialize runId chunks err obs).countP Event.isMetadata ≤ 1
    ∧ (obs 0 = true →
        metaAfterData (runEvents serialize runId chunks err obs) = false) := by
  constructor
  · cases err with
    | none =>
        obtain ⟨pre, htr, hall, hdata, hle⟩ :=
          streamRun_none_decomp serialize runId chunks obs
        have hev : runEvents serialize runId chunks none obs
            = emitted pre ++ [Event.endEvent] := by
          rw [runEvents, htr, emitted_append]; rfl
        rw [hev, List.countP_append]
        simpa [Event.isMetadata] using hle
    | some m =>
        obtain ⟨pre, htr, hall, hdata, hle⟩ :=
          streamRun_some_decomp serialize runId chunks m obs
        have hev : runEvents serialize runId chunks (some m) obs
            = emitted pre ++ [Event.error errorPayload] := by
          rw [runEvents, htr, emitted_append]; rfl
        rw [hev, List.countP_append]
        simpa [Event.isMetadata] using hle
  · intro h0
    rw [runEvents, streamRun]
    exact metaAfterData_of_obs0 serialize runId _ obs h0

/-- C3 (witness): the amended theorem instantiated on a one-chunk failing
run with the aggregator ready from the start. -/
theorem c3_metadata_once_witness :
    (runEvents id "s" ["C"] (some "boom") (fun _ => true)).countP
        Event.isMetadata ≤ 1
    ∧ metaAfterData (runEvents id "s" ["C"] (some "boom") (fun _ => true))
        = false := by
  have h := c3_metadata_once id "s" ["C"] (some "boom") (fun _ => true)
  exact ⟨h.1, h.2 rfl⟩

/-- C4 (counterexample): in a streaming run that ends with a failure marker
the generator re-raises right after the error event, so the background task
handle is never awaited — not awaited exactly once as claimed. -/
theorem c4_counterexample :
    (streamRun id "r" ["A"] (some "x") (fun _ => false)).countP
        StreamAction.isAwait = 0
    ∧ ¬ (streamRun id "r" ["A"] (some "x") (fun _ => false)).countP
        StreamAction.isAwait = 1 := by decide

/-- C4 (amended): for every streaming run whose channel closes without a
failure marker and whose stream is consumed to the end, the background task
handle is awaited exactly once, as the generator's last step before the
stream closes; when a failure marker is observed, the generator terminates
by re-raising without awaiting the task handle. -/
theorem c4_await_on_success (serialize : String → String) (runId : String)
    (chunks : List String) (m : String) (obs : Nat → Bool) :
    (streamRun serialize runId chunks none obs).countP StreamAction.isAwait
        = 1
    ∧ (streamRun serialize runId chunks none obs).getLast?
        = some StreamAction.awaitTask
    ∧ (streamRun serialize runId chunks (some m) obs).countP
        StreamAction.isAwait = 0 := by
  obtain ⟨pre, htr, hall, hdata, hle⟩ :=
    streamRun_none_decomp serialize runId chunks obs
  obtain ⟨hend, herr, hawait⟩ := all_metaOrData_counts pre hall
  obtain ⟨pre₂, htr₂, hall₂, hdata₂, hle₂⟩ :=
    streamRun_some_decomp serialize runId chunks m obs
  obtain ⟨hend₂, herr₂, hawait₂⟩ := all_metaOrData_counts pre₂ hall₂
  refine ⟨?_, ?_, ?_⟩
  · rw [htr, List.countP_append, hawait]
    simp [StreamAction.isAwait]
  · rw [htr, show pre ++ [StreamAction.emit Event.endEvent,
        StreamAction.awaitTask]
      = (pre ++ [StreamAction.emit Event.endEvent])
          ++ [StreamAction.awaitTask] by simp]
    exact List.getLast?_concat _
  · rw [htr₂, List.countP_append, hawait₂]
    simp [StreamAction.isAwait]

/-- C9: a successful run producing zero chunks emits exactly the end event
(and then awaits the task), whatever the aggregator observations are: no
metadata event is ever emitted, because metadata emission only happens when
a chunk is handled. -/
theorem c9_empty_run (serialize : String → String) (runId : String)
    (obs : Nat → Bool) :
    streamRun serialize runId [] none obs
        = [StreamAction.emit Event.endEvent, StreamAction.awaitTask]
    ∧ runEvents serialize runId [] none obs = [Event.endEvent]
    ∧ (runEvents serialize runId [] none obs).countP Event.isMetadata = 0 :=
  ⟨rfl, rfl, rfl⟩

theorem consume_astream_cons (c : String) (cs : List String)
    (err : Option String) :
    consume_astream (c :: cs) err
      = ChannelAction.send (ChannelItem.chunk c) :: consume_astream cs err :=
  rfl

/-- C5: the background execution task closes the channel exactly once, as
its final action, in every run; it writes a failure marker exactly when the
agent raises (so at most one per run); and no item is ever sent after the
failure marker — it is the last item before closure. -/
theorem c5_channel_discipline (chunks : List String) (err : Option String) :
    (consume_astream chunks err).countP ChannelAction.isClose = 1
    ∧ (consume_astream chunks err).getLast? = some ChannelAction.aclose
    ∧ (consume_astream chunks err).countP ChannelAction.isFailureSend
        = (if err.isSome then 1 else 0)
    ∧ noSendAfterFailure (consume_astream chunks err) = true := by
  induction chunks with
  | nil =>
      cases err with
      | none =>
          refine ⟨rfl, rfl, rfl, rfl⟩
      | some m =>
          refine ⟨rfl, rfl, rfl, ?_⟩
          simp [consume_astream, noSendAfterFailure, ChannelAction.isSend]
  | cons c cs ih =>
      obtain ⟨ih1, ih2, ih3, ih4⟩ := ih
      refine ⟨?_, ?_, ?_, ?_⟩
      · rw [consume_astream_cons, List.countP_cons, ih1]
        rfl
      · rw [consume_astream_cons]
        rw [List.getLast?_cons]
        simp [ih2]
      · rw [consume_astream_cons, List.countP_cons, ih3]
        cases err <;> rfl
      · rw [consume_astream_cons]
        simpa [noSendAfterFailure] using ih4

/-- C6: a request whose body is malformed JSON, or whose input fails schema
validation, is rejected with a structured `RequestValidationError`; and any
exceptional termination of the endpoint happens before the streaming
background task is created or a fire-and-forget task is scheduled. -/
theorem c6_reject_before_task (parsedBody : Option RequestBody)
    (priorMessages : List String)
    (validate : String → Except String (List String)) :
    (∀ e, (create_run_endpoint parsedBody priorMessages validate).response
          = Except.error e →
        (create_run_endpoint parsedBody priorMessages validate).streamTaskStarted = false
        ∧ (create_run_endpoint parsedBody priorMessages validate).backgroundTaskAdded = false)
    ∧ (parsedBody = none →
        create_run_endpoint parsedBody priorMessages validate
          = ⟨Except.error
                (EndpointError.requestValidationError "Invalid JSON body"),
              false, false⟩)
    ∧ (∀ (aid tid raw : String) (st : Option Bool) (e : String),
        validate raw = Except.error e →
        create_run_endpoint (some ⟨some aid, some tid, st, some raw⟩)
            priorMessages validate
          = ⟨Except.error (EndpointError.requestValidationError e),
              false, false⟩) := by
  refine ⟨?_, ?_, ?_⟩
  · intro e h
    rcases parsedBody with _ | ⟨aid, tid, st, inp⟩
    · exact ⟨rfl, rfl⟩
    rcases aid with _ | aid
    · exact ⟨rfl, rfl⟩
    rcases tid with _ | tid
    · exact ⟨rfl, rfl⟩
    rcases inp with _ | raw
    · exact ⟨rfl, rfl⟩
    cases hv : validate raw with
    | error e2 =>
        exact ⟨by simp [create_run_endpoint, hv],
          by simp [create_run_endpoint, hv]⟩
    | ok msgs =>
        rcases st with _ | st
        · exact ⟨by simp [create_run_endpoint, hv],
            by simp [create_run_endpoint, hv]⟩
        cases st
        · simp [create_run_endpoint, hv] at h
        · simp [create_run_endpoint, hv] at h
  · rintro rfl
    rfl
  · intro aid tid raw st e hv
    simp only [create_run_endpoint, hv]

/-- C6 (witness): a schema-invalid input is rejected as a validation error
with no task started. -/
theorem c6_reject_before_task_witness :
    create_run_endpoint (some ⟨some "a", some "t", some true, some "bad"⟩)
        [] (fun _ => Except.error "invalid input")
      = ⟨Except.error (EndpointError.requestValidationError "invalid input"),
          false, false⟩ :=
  (c6_reject_before_task
    (some ⟨some "a", some "t", some true, some "bad"⟩) []
    (fun _ => Except.error "invalid input")).2.2
    "a" "t" "bad" (some true) "invalid input" rfl

/-- C7: a valid non-streaming request schedules the agent invocation as a
fire-and-forget background task and returns the fixed acknowledgment
`{"status": "ok"}` — a response that carries no run identifier and is fully
determined by the request alone: the scheduled invocation's outcome is not
an input of the endpoint's result, so a later execution failure cannot be
surfaced to the caller synchronously. -/
theorem c7_fire_and_forget_ack (aid tid raw : String)
    (priorMessages inputMessages : List String)
    (validate : String → Except String (List String))
    (hv : validate raw = Except.ok inputMessages) :
    create_run_endpoint (some ⟨some aid, some tid, some false, some raw⟩)
        priorMessages validate
      = ⟨Except.ok (EndpointResponse.ack "ok"), false, true⟩ := by
  simp only [create_run_endpoint, hv]
  rfl

/-- C7 (witness): the fire-and-forget acknowledgment on a concrete valid
non-streaming request. -/
theorem c7_fire_and_forget_ack_witness :
    create_run_endpoint (some ⟨some "a", some "t", some false, some "in"⟩)
        ["p"] (fun _ => Except.ok ["m"])
      = ⟨Except.ok (EndpointResponse.ack "ok"), false, true⟩ :=
  c7_fire_and_forget_ack "a" "t" "in" ["p"] ["m"]
    (fun _ => Except.ok ["m"]) rfl

/-- C8: a valid streaming request constructs the `StreamMessagesHandler`
with the thread's prior messages concatenated, in order, with the newly
submitted input messages (`state["messages"] + input_["messages"]`); the
handler's message list is an immutable value fixed at construction. -/
theorem c8_streamer_messages (aid tid raw : String)
    (priorMessages inputMessages : List String)
    (validate : String → Except String (List String))
    (hv : validate raw = Except.ok inputMessages) :
    create_run_endpoint (some ⟨some aid, some tid, some true, some raw⟩)
        priorMessages validate
      = ⟨Except.ok (EndpointResponse.eventSource
            (priorMessages ++ inputMessages)), true, false⟩ := by
  simp only [create_run_endpoint, hv]
  rfl

/-- C8 (witness): the streaming response on a concrete valid request holds
the concatenated message history. -/
theorem c8_streamer_messages_witness :
    create_run_endpoint (some ⟨some "a", some "t", some true, some "in"⟩)
        ["p1", "p2"] (fun _ => Except.ok ["n1"])
      = ⟨Except.ok (EndpointResponse.eventSource ["p1", "p2", "n1"]), true,
          false⟩ :=
  c8_streamer_messages "a" "t" "in" ["p1", "p2"] ["n1"]
    (fun _ => Except.ok ["n1"]) rfl

/-- C10 (counterexample): a syntactically valid JSON body lacking only the
`stream` key, whose input fails schema validation, is rejected with a
structured validation error — not the claimed `KeyError` — because the
input is validated before the `stream` key is read. -/
theorem c10_counterexample :
    create_run_endpoint (some ⟨some "a", some "t", none, some "raw"⟩) []
        (fun _ => Except.error "bad")
      = ⟨Except.error (EndpointError.requestValidationError "bad"),
          false, false⟩ := rfl

/-- C10 (amended): a valid-JSON body missing `assistant_id`, `thread_id` or
`input` makes the endpoint raise a `KeyError` (an internal server error,
not a structured validation rejection); a body missing only `stream` does
so exactly when its input passes schema validation, since validation runs
before the `stream` key is read.  In each missing-key case the declared
`CreateRunPayload` request model would have rejected the body, but it is
never applied. -/
theorem c10_missing_key_keyerror (body : RequestBody)
    (priorMessages : List String)
    (validate : String → Except String (List String)) :
    (body.assistant_id = none →
      create_run_endpoint (some body) priorMessages validate
        = ⟨Except.error (EndpointError.keyError "assistant_id"),
            false, false⟩)
    ∧ (body.assistant_id.isSome = true → body.thread_id = none →
      create_run_endpoint (some body) priorMessages validate
        = ⟨Except.error (EndpointError.keyError "thread_id"), false, false⟩)
    ∧ (body.assistant_id.isSome = true → body.thread_id.isSome = true →
        body.input = none →
      create_run_endpoint (some body) priorMessages validate
        = ⟨Except.error (EndpointError.keyError "input"), false, false⟩)
    ∧ (∀ (raw : String) (msgs : List String),
        body.assistant_id.isSome = true → body.thread_id.isSome = true →
        body.input = some raw → validate raw = Except.ok msgs →
        body.stream = none →
      create_run_endpoint (some body) priorMessages validate
        = ⟨Except.error (EndpointError.keyError "stream"), false, false⟩)
    ∧ ((body.assistant_id = none ∨ body.thread_id = none
        ∨ body.stream = none ∨ body.input = none) →
      validateCreateRunPayload validate body = none) := by
  obtain ⟨aid, tid, st, inp⟩ := body
  refine ⟨?_, ?_, ?_, ?_, ?_⟩
  · rintro rfl
    rfl
  · rintro ha rfl
    rcases aid with _ | aid
    · simp at ha
    rfl
  · rintro ha ht rfl
    rcases aid with _ | aid
    · simp at ha
    rcases tid with _ | tid
    · simp at ht
    rfl
  · rintro raw msgs ha ht hi hv rfl
    rcases aid with _ | aid
    · simp at ha
    rcases tid with _ | tid
    · simp at ht
    simp only at hi
    subst hi
    simp only [create_run_endpoint, hv]
  · intro h
    rcases aid with _ | aid
    · cases tid <;> cases st <;> cases inp <;> rfl
    rcases tid with _ | tid
    · cases st <;> cases inp <;> rfl
    rcases st with _ | st
    · cases inp <;> rfl
    rcases inp with _ | raw
    · rfl
    · rcases h with h | h | h | h <;> simp at h

/-- C10 (witness): a body missing only `stream` whose input validates gets
a `KeyError` on `stream`, while the declared request model would have
rejected it. -/
theorem c10_missing_key_keyerror_witness :
    create_run_endpoint (some ⟨some "a", some "t", none, some "raw"⟩) []
        (fun _ => Except.ok ["m"])
      = ⟨Except.error (EndpointError.keyError "stream"), false, false⟩
    ∧ validateCreateRunPayload (fun _ => Except.ok ["m"])
        ⟨some "a", some "t", none, some "raw"⟩ = none :=
  ⟨(c10_missing_key_keyerror ⟨some "a", some "t", none, some "raw"⟩ []
      (fun _ => Except.ok ["m"])).2.2.2.1 "raw" ["m"] rfl rfl rfl rfl rfl,
    (c10_missing_key_keyerror ⟨some "a", some "t", none, some "raw"⟩ []
      (fun _ => Except.ok ["m"])).2.2.2.2 (Or.inr (Or.inr (Or.inl rfl)))⟩
